import Mathlib

/-!
Verification of the rate-limiting and request-admission subsystem of the
geoalbum backend (backend/middleware rate limiter, `common.ErrorResponse`,
and the router configuration).

Shallow embedding conventions:
* `time.Time` and `time.Duration` are modelled as `Nat` nanoseconds; the
  clock is monotone, so `now.Sub(lastRefill)` is `Nat` subtraction.
* Go `int` fields (`tokens`, `maxTokens`) are modelled as `Int`
  (mathematical integers; the deployed magnitudes are far from 2^63).
* The Go map `rateLimiters` is modelled as an association list from client
  identifier to limiter state; Go pointer mutation through the map becomes
  explicit functional update.
* Operations that Go serializes under a mutex (the body of `Allow`, the
  write-locked double-checked creation section, the sweep scan) are
  modelled as atomic state transformers; concurrent executions are
  modelled as arbitrary sequential interleavings of those atomic sections.
-/

/-- State of one client's token bucket, mirroring the Go struct
`RateLimiter` (fields `tokens`, `maxTokens`, `refillRate`, `lastRefill`;
the mutex is represented by the atomicity of the step functions). -/
structure RateLimiter where
  tokens : Int
  maxTokens : Int
  refillRate : Nat
  lastRefill : Nat
  deriving Repr, DecidableEq

/-- `NewRateLimiter(maxTokens, refillRate)`: a fresh limiter whose bucket
starts full and whose `lastRefill` is the creation instant. -/
def NewRateLimiter (maxTokens : Int) (refillRate : Nat) (now : Nat) : RateLimiter :=
  { tokens := maxTokens
    maxTokens := maxTokens
    refillRate := refillRate
    lastRefill := now }

/-- `(rl *RateLimiter) Allow()`: refill whole tokens earned since
`lastRefill`, cap at `maxTokens`, then admit (decrement) iff a token is
available.  Returns the admission decision and the updated state. -/
def RateLimiter.Allow (rl : RateLimiter) (now : Nat) : Bool × RateLimiter :=
  let elapsed : Nat := now - rl.lastRefill
  let tokensToAdd : Int := ((elapsed / rl.refillRate : Nat) : Int)
  let rl1 : RateLimiter :=
    if tokensToAdd > 0 then
      let t := rl.tokens + tokensToAdd
      { rl with tokens := if t > rl.maxTokens then rl.maxTokens else t
                lastRefill := now }
    else rl
  if rl1.tokens > 0 then
    (true, { rl1 with tokens := rl1.tokens - 1 })
  else
    (false, rl1)

/-- Spec-side restatement of the admission step, written from the spec's
wording: compute elapsed, earned = floor(elapsed / refillInterval); if at
least one earned, add capped at `maxTokens` and set `lastRefill` to now;
then decrement and admit iff `tokens > 0`.  Used only to compare with the
source-derived `RateLimiter.Allow`. -/
def allowSpec (rl : RateLimiter) (now : Nat) : Bool × RateLimiter :=
  let elapsed : Nat := now - rl.lastRefill
  let earned : Int := ((elapsed / rl.refillRate : Nat) : Int)
  let rl1 : RateLimiter :=
    if 1 ≤ earned then
      { rl with tokens := min (rl.tokens + earned) rl.maxTokens
                lastRefill := now }
    else rl
  if rl1.tokens > 0 then
    (true, { rl1 with tokens := rl1.tokens - 1 })
  else
    (false, rl1)

/-- Helper: the source-derived admission step and the spec-derived one
agree on every state and instant. -/
theorem allow_eq_allowSpec (rl : RateLimiter) (now : Nat) :
    rl.Allow now = allowSpec rl now := by
  show (let elapsed : Nat := now - rl.lastRefill
        let tokensToAdd : Int := ((elapsed / rl.refillRate : Nat) : Int)
        let rl1 : RateLimiter :=
          if tokensToAdd > 0 then
            let t := rl.tokens + tokensToAdd
            { rl with tokens := if t > rl.maxTokens then rl.maxTokens else t
                      lastRefill := now }
          else rl
        if rl1.tokens > 0 then
          (true, { rl1 with tokens := rl1.tokens - 1 })
        else
          (false, rl1)) =
       (let elapsed : Nat := now - rl.lastRefill
        let earned : Int := ((elapsed / rl.refillRate : Nat) : Int)
        let rl1 : RateLimiter :=
          if 1 ≤ earned then
            { rl with tokens := min (rl.tokens + earned) rl.maxTokens
                      lastRefill := now }
          else rl
        if rl1.tokens > 0 then
          (true, { rl1 with tokens := rl1.tokens - 1 })
        else
          (false, rl1))
  have h1 : ((((now - rl.lastRefill) / rl.refillRate : Nat) : Int) > 0) =
      (1 ≤ (((now - rl.lastRefill) / rl.refillRate : Nat) : Int)) := propext (by omega)
  have h2 : (if rl.tokens + (((now - rl.lastRefill) / rl.refillRate : Nat) : Int) > rl.maxTokens
        then rl.maxTokens
        else rl.tokens + (((now - rl.lastRefill) / rl.refillRate : Nat) : Int)) =
      min (rl.tokens + (((now - rl.lastRefill) / rl.refillRate : Nat) : Int)) rl.maxTokens := by
    rcases lt_or_le rl.maxTokens (rl.tokens + (((now - rl.lastRefill) / rl.refillRate : Nat) : Int)) with hgt | hle
    · rw [if_pos hgt, min_eq_right (le_of_lt hgt)]
    · rw [if_neg (not_lt.mpr hle), min_eq_left hle]
  show (let rl1 : RateLimiter :=
          if (((now - rl.lastRefill) / rl.refillRate : Nat) : Int) > 0 then
            { rl with tokens := if rl.tokens + (((now - rl.lastRefill) / rl.refillRate : Nat) : Int) > rl.maxTokens
                        then rl.maxTokens
                        else rl.tokens + (((now - rl.lastRefill) / rl.refillRate : Nat) : Int)
                      lastRefill := now }
          else rl
        if rl1.tokens > 0 then
          (true, { rl1 with tokens := rl1.tokens - 1 })
        else
          (false, rl1)) =
       (let rl1 : RateLimiter :=
          if 1 ≤ (((now - rl.lastRefill) / rl.refillRate : Nat) : Int) then
            { rl with tokens := min (rl.tokens + (((now - rl.lastRefill) / rl.refillRate : Nat) : Int)) rl.maxTokens
                      lastRefill := now }
          else rl
        if rl1.tokens > 0 then
          (true, { rl1 with tokens := rl1.tokens - 1 })
        else
          (false, rl1))
  simp only [h1, h2]

/-- Claim C1: every `Allow()` call performs exactly the spec's step
sequence — compute elapsed since `lastRefill`, earn
`floor(elapsed / refillInterval)` tokens, on earning at least one add them
capped at `maxTokens` and set `lastRefill` to now, then decrement and
return true iff `tokens > 0`.  Stated as equality of the source-derived
step function with the spec-derived one on all states and instants. -/
theorem allow_refines_spec (rl : RateLimiter) (now : Nat) :
    rl.Allow now = allowSpec rl now :=
  allow_eq_allowSpec rl now

/-- Whole tokens earned since the last refill, as `Allow` computes them. -/
def earnedTokens (rl : RateLimiter) (now : Nat) : Int :=
  (((now - rl.lastRefill) / rl.refillRate : Nat) : Int)

/-- The token count after the refill phase of `Allow`, before the
admission decrement. -/
def refilledTokens (rl : RateLimiter) (now : Nat) : Int :=
  if 1 ≤ earnedTokens rl now then
    min (rl.tokens + earnedTokens rl now) rl.maxTokens
  else rl.tokens

/-- The `lastRefill` value after the refill phase of `Allow`. -/
def refillStamp (rl : RateLimiter) (now : Nat) : Nat :=
  if 1 ≤ earnedTokens rl now then now else rl.lastRefill

/-- Flattened characterization of the admission step, convenient for
case analysis. -/
theorem allow_flat (rl : RateLimiter) (now : Nat) :
    rl.Allow now =
      (if 0 < refilledTokens rl now then
        (true, { tokens := refilledTokens rl now - 1
                 maxTokens := rl.maxTokens
                 refillRate := rl.refillRate
                 lastRefill := refillStamp rl now })
      else
        (false, { tokens := refilledTokens rl now
                  maxTokens := rl.maxTokens
                  refillRate := rl.refillRate
                  lastRefill := refillStamp rl now })) := by
  rw [allow_eq_allowSpec]
  unfold allowSpec refilledTokens refillStamp earnedTokens
  by_cases h : (1 : Int) ≤ (((now - rl.lastRefill) / rl.refillRate : Nat) : Int)
  · simp only [if_pos h]
  · simp only [if_neg h]

/-- The earned-token count is never negative (elapsed time is a `Nat`). -/
theorem earnedTokens_nonneg (rl : RateLimiter) (now : Nat) :
    0 ≤ earnedTokens rl now :=
  Int.ofNat_nonneg _

/-- `Allow` never changes the capacity ceiling. -/
theorem allow_maxTokens (rl : RateLimiter) (now : Nat) :
    (rl.Allow now).2.maxTokens = rl.maxTokens := by
  rw [allow_flat]
  split <;> rfl

/-- `Allow` never changes the refill interval. -/
theorem allow_refillRate (rl : RateLimiter) (now : Nat) :
    (rl.Allow now).2.refillRate = rl.refillRate := by
  rw [allow_flat]
  split <;> rfl

/-- `Allow` preserves the token bounds. -/
theorem allow_bounds (rl : RateLimiter) (now : Nat)
    (h0 : 0 ≤ rl.tokens) (h1 : rl.tokens ≤ rl.maxTokens) :
    0 ≤ (rl.Allow now).2.tokens ∧
    (rl.Allow now).2.tokens ≤ (rl.Allow now).2.maxTokens := by
  rw [allow_flat]
  have he : 0 ≤ earnedTokens rl now := earnedTokens_nonneg rl now
  unfold refilledTokens
  split <;> split <;> simp <;> omega

/-- A sequence of `Allow()` calls interleaved with clock advances: each
list entry is the (nonnegative) advance of the monotone clock before the
next call.  Returns the admission decisions in order and the final
limiter state. -/
def runAllows (rl : RateLimiter) (t : Nat) : List Nat → List Bool × RateLimiter
  | [] => ([], rl)
  | d :: ds =>
    let now := t + d
    let r := rl.Allow now
    let rest := runAllows r.2 now ds
    (r.1 :: rest.1, rest.2)

/-- Helper: running any trace preserves the token bounds and the
capacity ceiling. -/
theorem runAllows_bounds : ∀ (ds : List Nat) (rl : RateLimiter) (t : Nat),
    0 ≤ rl.tokens → rl.tokens ≤ rl.maxTokens →
    0 ≤ (runAllows rl t ds).2.tokens ∧
    (runAllows rl t ds).2.tokens ≤ (runAllows rl t ds).2.maxTokens ∧
    (runAllows rl t ds).2.maxTokens = rl.maxTokens
  | [], rl, t, h0, h1 => ⟨h0, h1, rfl⟩
  | d :: ds, rl, t, h0, h1 => by
    have hb := allow_bounds rl (t + d) h0 h1
    have hm := allow_maxTokens rl (t + d)
    have ih := runAllows_bounds ds (rl.Allow (t + d)).2 (t + d) hb.1 hb.2
    simp only [runAllows]
    exact ⟨ih.1, ih.2.1, by rw [ih.2.2, hm]⟩

/-- Claim C2: for a limiter created by `NewRateLimiter` with
`maxTokens ≥ 0`, under every sequence of `Allow()` calls interleaved with
arbitrary clock advances, `0 ≤ tokens ≤ maxTokens` holds at every
observation point (every prefix of a trace is itself a trace, so the final
state of an arbitrary trace covers all observation points). -/
theorem tokens_bounds_invariant (maxT : Int) (rate t0 : Nat) (ds : List Nat)
    (h : 0 ≤ maxT) :
    0 ≤ (runAllows (NewRateLimiter maxT rate t0) t0 ds).2.tokens ∧
    (runAllows (NewRateLimiter maxT rate t0) t0 ds).2.tokens ≤ maxT := by
  have hb := runAllows_bounds ds (NewRateLimiter maxT rate t0) t0 h (le_refl _)
  refine ⟨hb.1, ?_⟩
  have h3 := hb.2.1
  rw [hb.2.2] at h3
  exact h3

/-- Witness for C2 at a concrete configuration and trace. -/
theorem tokens_bounds_invariant_witness :
    (0 : Int) ≤ 5 ∧
    (0 ≤ (runAllows (NewRateLimiter 5 7 0) 0 [0, 3, 9, 0]).2.tokens ∧
     (runAllows (NewRateLimiter 5 7 0) 0 [0, 3, 9, 0]).2.tokens ≤ 5) :=
  ⟨by decide, tokens_bounds_invariant 5 7 0 [0, 3, 9, 0] (by decide)⟩

/-- Helper: an `Allow()` call at the instant `lastRefill` earns no tokens,
so the limiter only performs the admission decrement. -/
theorem allow_at_lastRefill (rl : RateLimiter) :
    rl.Allow rl.lastRefill =
      (if 0 < rl.tokens then (true, { rl with tokens := rl.tokens - 1 })
       else (false, rl)) := by
  rw [allow_flat]
  have h : earnedTokens rl rl.lastRefill = 0 := by
    unfold earnedTokens
    simp
  simp [refilledTokens, refillStamp, h]

/-- Unfolding equation for one step of a trace. -/
theorem runAllows_cons (rl : RateLimiter) (t d : Nat) (ds : List Nat) :
    runAllows rl t (d :: ds) =
      ((rl.Allow (t + d)).1 ::
         (runAllows (rl.Allow (t + d)).2 (t + d) ds).1,
       (runAllows (rl.Allow (t + d)).2 (t + d) ds).2) := rfl

/-- Helper: a limiter holding exactly `m` tokens, probed `m + 1` times
with no clock advance, admits the first `m` calls and rejects the last. -/
theorem runAllows_drain : ∀ (m : Nat) (rl : RateLimiter),
    rl.tokens = (m : Int) →
    (runAllows rl rl.lastRefill (List.replicate (m + 1) 0)).1 =
      List.replicate m true ++ [false]
  | 0, rl, htok => by
    have hneg : ¬ 0 < rl.tokens := by omega
    simp only [List.replicate_succ, List.replicate_zero, runAllows_cons,
      Nat.add_zero]
    rw [allow_at_lastRefill, if_neg hneg]
    simp [runAllows]
  | m + 1, rl, htok => by
    have hpos : 0 < rl.tokens := by omega
    have ih := runAllows_drain m { rl with tokens := rl.tokens - 1 }
      (by show rl.tokens - 1 = (m : Int); rw [htok]; push_cast; ring)
    simp only [List.replicate_succ, runAllows_cons, Nat.add_zero]
    rw [allow_at_lastRefill, if_pos hpos]
    simp only [List.cons_append]
    refine congrArg (List.cons true) ?_
    simpa using ih

/-- Claim C3: a fresh limiter with `maxTokens = N` (N ≥ 1) probed `N + 1`
times with no clock advance admits exactly the first `N` calls and
rejects the `(N + 1)`-th. -/
theorem exact_admission_count (N : Nat) (hN : 1 ≤ N) (rate t0 : Nat) :
    (runAllows (NewRateLimiter (N : Int) rate t0) t0
        (List.replicate (N + 1) 0)).1 =
      List.replicate N true ++ [false] :=
  runAllows_drain N (NewRateLimiter (N : Int) rate t0) rfl

/-- Witness for C3 at N = 3 with a 5ns refill interval. -/
theorem exact_admission_count_witness :
    1 ≤ 3 ∧
    (runAllows (NewRateLimiter ((3 : Nat) : Int) 5 0) 0
        (List.replicate (3 + 1) 0)).1 =
      List.replicate 3 true ++ [false] :=
  ⟨by decide, exact_admission_count 3 (by decide) 5 0⟩

/-- One second, one minute and one hour in nanoseconds
(`time.Second`, `time.Minute`, `time.Hour`). -/
def secondNs : Nat := 1000000000

/-- Claim C4: a fresh limiter with `maxTokens = 5` and
`refillInterval = 1s`, exhausted by 5 calls and then probed 4 more times
after the clock advances by exactly `3 * refillInterval`, admits exactly
the next 3 calls and rejects the one after. -/
theorem refill_correctness (t0 : Nat) :
    (runAllows (NewRateLimiter 5 secondNs t0) t0
        [0, 0, 0, 0, 0, 3 * secondNs, 0, 0, 0]).1 =
      [true, true, true, true, true, true, true, true, false] := by
  have hS : 0 < secondNs := by norm_num [secondNs]
  have hstep : ∀ (k : Int) (s : Nat), 0 < k →
      RateLimiter.Allow ⟨k, 5, secondNs, s⟩ s =
        (true, ⟨k - 1, 5, secondNs, s⟩) := by
    intro k s hk
    have h0 := allow_at_lastRefill (⟨k, 5, secondNs, s⟩ : RateLimiter)
    rw [h0, if_pos hk]
  have hstop : ∀ s : Nat,
      RateLimiter.Allow ⟨0, 5, secondNs, s⟩ s =
        (false, ⟨0, 5, secondNs, s⟩) := by
    intro s
    have h0 := allow_at_lastRefill (⟨0, 5, secondNs, s⟩ : RateLimiter)
    rw [h0, if_neg (by norm_num)]
  have hgap : RateLimiter.Allow ⟨0, 5, secondNs, t0⟩ (t0 + 3 * secondNs) =
      (true, ⟨2, 5, secondNs, t0 + 3 * secondNs⟩) := by
    rw [allow_flat]
    have he : earnedTokens ⟨0, 5, secondNs, t0⟩ (t0 + 3 * secondNs) = 3 := by
      unfold earnedTokens
      have h1 : t0 + 3 * secondNs - t0 = 3 * secondNs := by omega
      rw [show (⟨0, 5, secondNs, t0⟩ : RateLimiter).lastRefill = t0 from rfl,
        show (⟨0, 5, secondNs, t0⟩ : RateLimiter).refillRate = secondNs from rfl,
        h1, Nat.mul_div_cancel 3 hS]
      rfl
    rw [show refilledTokens ⟨0, 5, secondNs, t0⟩ (t0 + 3 * secondNs) = 3 by
          rw [refilledTokens, he]; norm_num,
        show refillStamp ⟨0, 5, secondNs, t0⟩ (t0 + 3 * secondNs) = t0 + 3 * secondNs by
          rw [refillStamp, he]; norm_num]
    norm_num
  show (runAllows (⟨5, 5, secondNs, t0⟩ : RateLimiter) t0
        [0, 0, 0, 0, 0, 3 * secondNs, 0, 0, 0]).1 = _
  rw [runAllows_cons, Nat.add_zero, hstep 5 t0 (by norm_num)]
  rw [runAllows_cons, Nat.add_zero, show (5 : Int) - 1 = 4 from rfl,
    hstep 4 t0 (by norm_num)]
  rw [runAllows_cons, Nat.add_zero, show (4 : Int) - 1 = 3 from rfl,
    hstep 3 t0 (by norm_num)]
  rw [runAllows_cons, Nat.add_zero, show (3 : Int) - 1 = 2 from rfl,
    hstep 2 t0 (by norm_num)]
  rw [runAllows_cons, Nat.add_zero, show (2 : Int) - 1 = 1 from rfl,
    hstep 1 t0 (by norm_num)]
  rw [runAllows_cons, show (1 : Int) - 1 = 0 from rfl, hgap]
  rw [runAllows_cons, Nat.add_zero, hstep 2 (t0 + 3 * secondNs) (by norm_num)]
  rw [runAllows_cons, Nat.add_zero, show (2 : Int) - 1 = 1 from rfl,
    hstep 1 (t0 + 3 * secondNs) (by norm_num)]
  rw [runAllows_cons, Nat.add_zero, show (1 : Int) - 1 = 0 from rfl,
    hstop (t0 + 3 * secondNs)]
  rfl

/-- Helper: a refill that earns at least one token stamps `lastRefill`
with the current instant. -/
theorem allow_lastRefill_of_refill (rl : RateLimiter) (t : Nat)
    (h : 1 ≤ earnedTokens rl t) : (rl.Allow t).2.lastRefill = t := by
  rw [allow_flat]
  split <;> simp [refillStamp, h]

/-- Claim C8: an `Allow()` call whose elapsed time since `lastRefill` is
strictly below one `refillInterval` earns zero tokens and leaves
`lastRefill`, `maxTokens` and `refillRate` unchanged; only `tokens` may
change, and then only by the admission decrement of 1. -/
theorem allow_frame_no_refill (rl : RateLimiter) (now : Nat)
    (h : now - rl.lastRefill < rl.refillRate) :
    (rl.Allow now).2.lastRefill = rl.lastRefill ∧
    (rl.Allow now).2.maxTokens = rl.maxTokens ∧
    (rl.Allow now).2.refillRate = rl.refillRate ∧
    ((rl.Allow now).2.tokens = rl.tokens ∨
     (rl.Allow now).2.tokens = rl.tokens - 1) := by
  have he : earnedTokens rl now = 0 := by
    unfold earnedTokens
    rw [Nat.div_eq_of_lt h]
    rfl
  have hrf : refilledTokens rl now = rl.tokens := by
    simp [refilledTokens, he]
  have hst : refillStamp rl now = rl.lastRefill := by
    simp [refillStamp, he]
  rw [allow_flat, hrf, hst]
  split
  · exact ⟨rfl, rfl, rfl, Or.inr rfl⟩
  · exact ⟨rfl, rfl, rfl, Or.inl rfl⟩

/-- Witness for C8: a call 7ns after the last refill with a 10ns
interval. -/
theorem allow_frame_no_refill_witness :
    7 - (⟨3, 5, 10, 0⟩ : RateLimiter).lastRefill <
      (⟨3, 5, 10, 0⟩ : RateLimiter).refillRate ∧
    (((⟨3, 5, 10, 0⟩ : RateLimiter).Allow 7).2.lastRefill =
       (⟨3, 5, 10, 0⟩ : RateLimiter).lastRefill ∧
     ((⟨3, 5, 10, 0⟩ : RateLimiter).Allow 7).2.maxTokens =
       (⟨3, 5, 10, 0⟩ : RateLimiter).maxTokens ∧
     ((⟨3, 5, 10, 0⟩ : RateLimiter).Allow 7).2.refillRate =
       (⟨3, 5, 10, 0⟩ : RateLimiter).refillRate ∧
     (((⟨3, 5, 10, 0⟩ : RateLimiter).Allow 7).2.tokens =
        (⟨3, 5, 10, 0⟩ : RateLimiter).tokens ∨
      ((⟨3, 5, 10, 0⟩ : RateLimiter).Allow 7).2.tokens =
        (⟨3, 5, 10, 0⟩ : RateLimiter).tokens - 1)) :=
  ⟨by decide, allow_frame_no_refill ⟨3, 5, 10, 0⟩ 7 (by decide)⟩

/-- The global registry `rateLimiters`, modelled as an association list
from client IP to limiter state. -/
abbrev Registry := List (String × RateLimiter)

/-- Map lookup `rateLimiters[clientIP]`. -/
def lookupReg : Registry → String → Option RateLimiter
  | [], _ => none
  | (k, v) :: rest, key => if k = key then some v else lookupReg rest key

/-- In-place mutation of the limiter a map entry points to, made explicit
as a functional update of the entry for `key`. -/
def updateReg : Registry → String → RateLimiter → Registry
  | [], _, _ => []
  | (k, v) :: rest, key, rl =>
    if k = key then (k, rl) :: rest else (k, v) :: updateReg rest key rl

/-- The double-checked creation protocol of `RateLimitMiddleware`: the
read-locked lookup followed, on a miss, by the write-locked re-check and
insert.  Serialized, the whole call is one atomic step returning the
client's limiter and the possibly extended registry. -/
def getOrCreate (reg : Registry) (key : String) (maxRequests : Int)
    (refillRate now : Nat) : RateLimiter × Registry :=
  match lookupReg reg key with
  | some rl => (rl, reg)
  | none =>
    let rl := NewRateLimiter maxRequests refillRate now
    (rl, (key, rl) :: reg)

/-- The body of the write-locked section alone (the re-check plus the
insert): the atomic step each contending goroutine eventually executes. -/
def checkAndCreate (reg : Registry) (key : String) (maxT : Int)
    (rate now : Nat) : Registry :=
  match lookupReg reg key with
  | some _ => reg
  | none => (key, NewRateLimiter maxT rate now) :: reg

/-- `details` payload of the rate-limit rejection: the
`gin.H` map with the single key `retry_after`.  Go sends
`window.Seconds()` (a `float64`); its exact value, `window / 1e9`, is
modelled as a rational. -/
structure RetryDetails where
  retry_after : ℚ
  deriving Repr, DecidableEq

/-- `common.APIError`: the standardized error structure (JSON keys
`code`, `message`, `details`). -/
structure APIError where
  code : String
  message : String
  details : Option RetryDetails
  deriving Repr, DecidableEq

/-- `common.APIResponse` as produced by `common.ErrorResponse`: `success`
is false, `error` is populated, `data` and `meta` are omitted. -/
structure APIResponse where
  success : Bool
  error : Option APIError
  deriving Repr, DecidableEq

/-- `common.ErrorResponse(c, status, code, message, details)` body. -/
def ErrorResponse (code message : String) (details : Option RetryDetails) :
    APIResponse :=
  { success := false
    error := some { code := code, message := message, details := details } }

/-- `time.Duration.Seconds()` as an exact rational. -/
def durationSeconds (d : Nat) : ℚ := (d : ℚ) / 1000000000

/-- Outcome of one middleware invocation: `next` models `c.Next()`
(forward to the remaining handler chain); `abortWith` models writing the
response and calling `c.Abort()` followed by `return` (the request is not
forwarded). -/
inductive MiddlewareOutcome where
  | next
  | abortWith (status : Nat) (body : APIResponse)
  deriving Repr, DecidableEq

/-- `refillRate := window / time.Duration(maxRequests)` as computed once
when `RateLimitMiddleware` is constructed. -/
def computeRefillRate (window maxRequests : Nat) : Nat := window / maxRequests

/-- One invocation of the handler returned by
`RateLimitMiddleware(maxRequests, window)` for a request from `clientIP`
at instant `now`: get or create the client's limiter, run `Allow`, and
either forward or abort with the 429 error response. -/
def RateLimitMiddleware (maxRequests window : Nat) (reg : Registry)
    (clientIP : String) (now : Nat) : MiddlewareOutcome × Registry :=
  let refillRate := computeRefillRate window maxRequests
  let gc := getOrCreate reg clientIP (maxRequests : Int) refillRate now
  let r := gc.1.Allow now
  let reg2 := updateReg gc.2 clientIP r.2
  if r.1 then (.next, reg2)
  else
    (.abortWith 429 (ErrorResponse "RATE_LIMIT_EXCEEDED"
        "Too many requests. Please try again later."
        (some { retry_after := durationSeconds window })), reg2)

/-- Claim C5: whenever the middleware's `Allow()` check rejects, the
invocation aborts the chain (outcome is `abortWith`, never `next`) with
status 429 and the standardized body: success false, code
`RATE_LIMIT_EXCEEDED`, the fixed message, and
`retry_after = window` in seconds. -/
theorem reject_response_shape (maxRequests window : Nat) (reg : Registry)
    (ip : String) (now : Nat)
    (h : ((getOrCreate reg ip (maxRequests : Int)
            (computeRefillRate window maxRequests) now).1.Allow now).1 = false) :
    (RateLimitMiddleware maxRequests window reg ip now).1 =
      .abortWith 429
        { success := false
          error := some
            { code := "RATE_LIMIT_EXCEEDED"
              message := "Too many requests. Please try again later."
              details := some { retry_after := durationSeconds window } } } := by
  unfold RateLimitMiddleware
  simp [h, ErrorResponse]

/-- Witness for C5: a registered client with an empty bucket probed with
no elapsed time. -/
theorem reject_response_shape_witness :
    ((getOrCreate [("1.2.3.4", ⟨0, 5, 1000000000, 0⟩)] "1.2.3.4"
        ((5 : Nat) : Int) (computeRefillRate 5000000000 5) 0).1.Allow 0).1 = false ∧
    (RateLimitMiddleware 5 5000000000 [("1.2.3.4", ⟨0, 5, 1000000000, 0⟩)]
        "1.2.3.4" 0).1 =
      .abortWith 429
        { success := false
          error := some
            { code := "RATE_LIMIT_EXCEEDED"
              message := "Too many requests. Please try again later."
              details := some { retry_after := durationSeconds 5000000000 } } } :=
  ⟨by decide, reject_response_shape 5 5000000000
      [("1.2.3.4", ⟨0, 5, 1000000000, 0⟩)] "1.2.3.4" 0 (by decide)⟩

/-- The idle-retention threshold of `CleanupRateLimiters`: 2 hours in
nanoseconds. -/
def idleThresholdNs : Nat := 2 * 3600 * 1000000000

/-- One pass of the `CleanupRateLimiters` scan, parameterized by the
threshold: delete every entry with `now.Sub(lastRefill) > idleThreshold`,
keep the rest.  The source hardcodes `idleThreshold = 2h`
(`idleThresholdNs`). -/
def sweep (reg : Registry) (now idleThreshold : Nat) : Registry :=
  reg.filter (fun e => !decide (idleThreshold < now - e.2.lastRefill))

/-- Unfolding equation for `sweep` on a cons cell. -/
theorem sweep_cons (k : String) (v : RateLimiter) (rest : Registry)
    (now thr : Nat) :
    sweep ((k, v) :: rest) now thr =
      if thr < now - v.lastRefill then sweep rest now thr
      else (k, v) :: sweep rest now thr := by
  by_cases hc : thr < now - v.lastRefill <;>
    simp [sweep, List.filter_cons, hc]

/-- Membership in a swept registry. -/
theorem mem_sweep_iff (reg : Registry) (now thr : Nat) (k : String)
    (v : RateLimiter) :
    (k, v) ∈ sweep reg now thr ↔ (k, v) ∈ reg ∧ now - v.lastRefill ≤ thr := by
  simp [sweep, List.mem_filter]

/-- Claim C6: the sweep removes every entry whose `lastRefill` is older
than `now - idleThreshold`, and an entry whose limiter was refreshed by an
`Allow()` call (one that earned at least one token, stamping `lastRefill`)
more recently than the idle threshold survives the same sweep call. -/
theorem sweep_correct (reg : Registry) (now thr : Nat) (k1 k2 : String)
    (rlStale rl : RateLimiter) (t : Nat)
    (hstale : thr < now - rlStale.lastRefill)
    (hearn : 1 ≤ earnedTokens rl t)
    (hrecent : now - t < thr)
    (hmem : (k2, (rl.Allow t).2) ∈ reg) :
    (k1, rlStale) ∉ sweep reg now thr ∧
    (k2, (rl.Allow t).2) ∈ sweep reg now thr := by
  constructor
  · intro hmem2
    rw [mem_sweep_iff] at hmem2
    omega
  · rw [mem_sweep_iff]
    refine ⟨hmem, ?_⟩
    rw [allow_lastRefill_of_refill rl t hearn]
    omega

/-- Witness for C6: sweep at t=40ns with threshold 30ns; the stale entry
was last refilled at 0, the fresh one was refreshed by an admitting
`Allow()` at t=25ns. -/
theorem sweep_correct_witness :
    30 < 40 - (⟨2, 5, 10, 0⟩ : RateLimiter).lastRefill ∧
    1 ≤ earnedTokens ⟨0, 5, 10, 0⟩ 25 ∧
    40 - 25 < 30 ∧
    ("b", ((⟨0, 5, 10, 0⟩ : RateLimiter).Allow 25).2) ∈
      ([("a", ⟨2, 5, 10, 0⟩), ("b", ⟨1, 5, 10, 25⟩)] : Registry) ∧
    (("a", (⟨2, 5, 10, 0⟩ : RateLimiter)) ∉
       sweep [("a", ⟨2, 5, 10, 0⟩), ("b", ⟨1, 5, 10, 25⟩)] 40 30 ∧
     ("b", ((⟨0, 5, 10, 0⟩ : RateLimiter).Allow 25).2) ∈
       sweep [("a", ⟨2, 5, 10, 0⟩), ("b", ⟨1, 5, 10, 25⟩)] 40 30) :=
  ⟨by decide, by decide, by decide, by decide,
   sweep_correct [("a", ⟨2, 5, 10, 0⟩), ("b", ⟨1, 5, 10, 25⟩)] 40 30
     "a" "b" ⟨2, 5, 10, 0⟩ ⟨0, 5, 10, 0⟩ 25
     (by decide) (by decide) (by decide) (by decide)⟩

/-- N goroutines contending on first access for the same key: each
eventually executes the write-locked check-and-create section atomically;
`times` lists the instants of those executions in serialization order. -/
def raceCreate (key : String) (maxT : Int) (rate : Nat) :
    Registry → List Nat → Registry
  | reg, [] => reg
  | reg, now :: rest =>
    raceCreate key maxT rate (checkAndCreate reg key maxT rate now) rest

/-- Number of registry entries stored under `key`. -/
def countKey (reg : Registry) (key : String) : Nat :=
  (reg.filter (fun e => decide (e.1 = key))).length

/-- `countKey` on a cons cell. -/
theorem countKey_cons (k : String) (v : RateLimiter) (rest : Registry)
    (key : String) :
    countKey ((k, v) :: rest) key =
      (if k = key then 1 else 0) + countKey rest key := by
  by_cases hk : k = key
  · simp [countKey, List.filter_cons, hk]
    omega
  · simp [countKey, List.filter_cons, hk]

/-- A key that looks up to nothing has no entries. -/
theorem lookupReg_none_countKey : ∀ (reg : Registry) (key : String),
    lookupReg reg key = none → countKey reg key = 0
  | [], _, _ => rfl
  | (k, v) :: rest, key, h => by
    by_cases hk : k = key
    · simp [lookupReg, hk] at h
    · simp only [lookupReg, if_neg hk] at h
      rw [countKey_cons, if_neg hk, lookupReg_none_countKey rest key h]

/-- Once the key is present, every later check-and-create is a no-op. -/
theorem raceCreate_of_mem : ∀ (times : List Nat) (reg : Registry)
    (key : String) (maxT : Int) (rate : Nat) (v : RateLimiter),
    lookupReg reg key = some v →
    raceCreate key maxT rate reg times = reg
  | [], _, _, _, _, _, _ => rfl
  | now :: rest, reg, key, maxT, rate, v, h => by
    have hc : checkAndCreate reg key maxT rate now = reg := by
      unfold checkAndCreate
      rw [h]
    simp only [raceCreate, hc]
    exact raceCreate_of_mem rest reg key maxT rate v h

/-- Claim C7: under concurrent first access for an unseen key, any
nonempty serialization of the write-locked check-and-create sections
creates exactly one limiter: the registry grows by exactly one entry and
holds exactly one entry for that key. -/
theorem double_checked_creation (reg : Registry) (key : String) (maxT : Int)
    (rate : Nat) (times : List Nat)
    (habsent : lookupReg reg key = none) (hne : times ≠ []) :
    (raceCreate key maxT rate reg times).length = reg.length + 1 ∧
    countKey (raceCreate key maxT rate reg times) key = 1 := by
  cases times with
  | nil => exact absurd rfl hne
  | cons now rest =>
    have hstep : checkAndCreate reg key maxT rate now =
        (key, NewRateLimiter maxT rate now) :: reg := by
      unfold checkAndCreate
      rw [habsent]
    have hlook : lookupReg ((key, NewRateLimiter maxT rate now) :: reg) key =
        some (NewRateLimiter maxT rate now) := by
      simp [lookupReg]
    have hrest := raceCreate_of_mem rest _ key maxT rate _ hlook
    simp only [raceCreate, hstep, hrest]
    refine ⟨by simp, ?_⟩
    rw [countKey_cons, if_pos rfl, lookupReg_none_countKey reg key habsent]

/-- Witness for C7: two goroutines racing on the unseen key "y". -/
theorem double_checked_creation_witness :
    lookupReg [("x", ⟨1, 2, 3, 4⟩)] "y" = none ∧
    ([7, 8] : List Nat) ≠ [] ∧
    ((raceCreate "y" 5 6 [("x", ⟨1, 2, 3, 4⟩)] [7, 8]).length =
       [("x", (⟨1, 2, 3, 4⟩ : RateLimiter))].length + 1 ∧
     countKey (raceCreate "y" 5 6 [("x", ⟨1, 2, 3, 4⟩)] [7, 8]) "y" = 1) :=
  ⟨by decide, by decide,
   double_checked_creation [("x", ⟨1, 2, 3, 4⟩)] "y" 5 6 [7, 8]
     (by decide) (by decide)⟩

/-- After a sweep that tests every entry for a key as idle, the key looks
up to nothing. -/
theorem lookupReg_sweep_none : ∀ (reg : Registry) (now thr : Nat)
    (key : String),
    (∀ e ∈ reg, e.1 = key → thr < now - e.2.lastRefill) →
    lookupReg (sweep reg now thr) key = none
  | [], _, _, _, _ => rfl
  | (k, v) :: rest, now, thr, key, h => by
    have ih := lookupReg_sweep_none rest now thr key
      (fun e he => h e (List.mem_cons_of_mem _ he))
    by_cases hc : thr < now - v.lastRefill
    · rw [sweep_cons, if_pos hc]
      exact ih
    · rw [sweep_cons, if_neg hc]
      have hk : k ≠ key := fun hkeq => hc (h (k, v) (List.mem_cons_self _ _) hkeq)
      simp only [lookupReg, if_neg hk]
      exact ih

/-- Claim C9: once the sweep has evicted every entry for an idle client,
that client's next request makes the middleware create a fresh limiter
via `NewRateLimiter`, whose `tokens` equal `maxTokens` — eviction resets
the budget to full regardless of the tokens remaining at eviction. -/
theorem eviction_resets_budget (reg : Registry) (now thr : Nat)
    (key : String) (maxT : Int) (rate tnew : Nat)
    (hidle : ∀ e ∈ reg, e.1 = key → thr < now - e.2.lastRefill) :
    lookupReg (sweep reg now thr) key = none ∧
    (getOrCreate (sweep reg now thr) key maxT rate tnew).1 =
      NewRateLimiter maxT rate tnew ∧
    (getOrCreate (sweep reg now thr) key maxT rate tnew).1.tokens =
      (getOrCreate (sweep reg now thr) key maxT rate tnew).1.maxTokens := by
  have hnone := lookupReg_sweep_none reg now thr key hidle
  have hgc : getOrCreate (sweep reg now thr) key maxT rate tnew =
      (NewRateLimiter maxT rate tnew,
       (key, NewRateLimiter maxT rate tnew) :: sweep reg now thr) := by
    unfold getOrCreate
    rw [hnone]
  exact ⟨hnone, by rw [hgc], by rw [hgc]; rfl⟩

/-- Witness for C9: a client holding 2 of 5 tokens goes idle and is
evicted; its next request gets a fresh limiter with a full budget. -/
theorem eviction_resets_budget_witness :
    (∀ e ∈ ([("a", ⟨2, 5, 10, 0⟩)] : Registry), e.1 = "a" →
       30 < 100 - e.2.lastRefill) ∧
    (lookupReg (sweep [("a", ⟨2, 5, 10, 0⟩)] 100 30) "a" = none ∧
     (getOrCreate (sweep [("a", ⟨2, 5, 10, 0⟩)] 100 30) "a" 7 3 200).1 =
       NewRateLimiter 7 3 200 ∧
     (getOrCreate (sweep [("a", ⟨2, 5, 10, 0⟩)] 100 30) "a" 7 3 200).1.tokens =
       (getOrCreate (sweep [("a", ⟨2, 5, 10, 0⟩)] 100 30) "a" 7 3 200).1.maxTokens) :=
  ⟨by decide,
   eviction_resets_budget [("a", ⟨2, 5, 10, 0⟩)] 100 30 "a" 7 3 200 (by decide)⟩

/-- Counterexample to claim C10 as stated: `maxRequests = 2 ≥ 1` with the
positive window `window = 1` ns gives `refillRate = 0`, so "refillRate > 0
for a positive window" does not follow from `maxRequests ≥ 1` alone, and
`Allow`'s division by `refillRate` would divide by zero. -/
theorem refillRate_zero_counterexample :
    1 ≤ 2 ∧ 0 < 1 ∧ computeRefillRate 1 2 = 0 := by decide

/-- Claim C10 as amended: `RateLimitMiddleware` computes
`refillRate = window / maxRequests` (`computeRefillRate`) and `Allow`
divides elapsed time by `refillRate`; `1 ≤ maxRequests` makes the first
division well-defined, and the strengthened precondition
`maxRequests ≤ window` (in nanoseconds) makes `refillRate` positive, so
`Allow`'s division is well-defined too; the deployed configuration
(`maxRequests = 100`, `window = 1` minute) satisfies both preconditions. -/
theorem refillRate_positive (window maxRequests : Nat)
    (h1 : 1 ≤ maxRequests) (h2 : maxRequests ≤ window) :
    0 < computeRefillRate window maxRequests ∧
    (1 ≤ 100 ∧ 100 ≤ 60 * secondNs) :=
  ⟨Nat.div_pos h2 h1, by decide, by decide⟩

/-- Witness for the amended C10 at the deployed configuration. -/
theorem refillRate_positive_witness :
    1 ≤ 100 ∧ 100 ≤ 60 * secondNs ∧
    (0 < computeRefillRate (60 * secondNs) 100 ∧
     (1 ≤ 100 ∧ 100 ≤ 60 * secondNs)) :=
  ⟨by decide, by decide,
   refillRate_positive (60 * secondNs) 100 (by decide) (by decide)⟩
